import Mathlib

/-!
Shallow embedding of the ESP32 Theremin audio core (oscillator bank, delay,
chorus, reverb, effects chain, audio engine mixing/output) and proofs of the
spec claims about it.

Modelling conventions, used uniformly below:
* `int16_t` / `int32_t` values are embedded as `ℤ`; a C cast to `int16_t` is
  `wrap16` (two's-complement wraparound), and a C float-to-integer conversion
  is `truncQ` (truncation toward zero).
* `float` quantities (phases, feedback coefficients, mixes) are embedded as
  `ℚ` with exact arithmetic; float literals like `0.28f` are read as the
  decimal rationals they denote.
* A heap sample buffer (`int16_t*` plus a size) is a `List ℤ`; circular
  indices are `ℕ`.
* The Arduino `constrain(x, lo, hi)` macro is embedded operator-for-operator
  (`if x < lo then lo else if x > hi then hi else x`), which matters when a
  caller passes an empty range `lo > hi`.
-/

/-- Arduino `constrain` macro on integers, exactly as the macro expands. -/
def constrainI (x lo hi : ℤ) : ℤ :=
  if x < lo then lo else if x > hi then hi else x

/-- Arduino `constrain` macro on floats (embedded as `ℚ`). -/
def constrainQ (x lo hi : ℚ) : ℚ :=
  if x < lo then lo else if x > hi then hi else x

/-- C float-to-integer conversion: truncation toward zero. -/
def truncQ (q : ℚ) : ℤ :=
  if 0 ≤ q then ⌊q⌋ else ⌈q⌉

/-- C cast to `int16_t`: two's-complement wraparound into `[-32768, 32767]`. -/
def wrap16 (z : ℤ) : ℤ :=
  (z + 32768) % 65536 - 32768

/-- A value fits the signed 16-bit sample format of `AudioConstants.h`. -/
def isSample16 (z : ℤ) : Prop :=
  -32768 ≤ z ∧ z ≤ 32767

instance (z : ℤ) : Decidable (isSample16 z) := by
  unfold isSample16; infer_instance

theorem truncQ_intCast (n : ℤ) : truncQ (n : ℚ) = n := by
  unfold truncQ
  split <;> simp

theorem wrap16_isSample16 (z : ℤ) : isSample16 (wrap16 z) := by
  unfold wrap16 isSample16
  have h1 : 0 ≤ (z + 32768) % 65536 := Int.emod_nonneg _ (by norm_num)
  have h2 : (z + 32768) % 65536 < 65536 := Int.emod_lt_of_pos _ (by norm_num)
  omega

theorem wrap16_eq_self {z : ℤ} (h : isSample16 z) : wrap16 z = z := by
  unfold wrap16
  unfold isSample16 at h
  have : (z + 32768) % 65536 = z + 32768 := Int.emod_eq_of_lt (by omega) (by omega)
  omega

theorem truncQ_le_of_le {q : ℚ} {b : ℤ} (h : q ≤ (b : ℚ)) :
    truncQ q ≤ b := by
  unfold truncQ
  split
  · calc ⌊q⌋ ≤ ⌊(b : ℚ)⌋ := Int.floor_le_floor h
      _ = b := Int.floor_intCast b
  · calc ⌈q⌉ ≤ ⌈(b : ℚ)⌉ := Int.ceil_le_ceil h
      _ = b := Int.ceil_intCast b

theorem le_truncQ_of_le {q : ℚ} {a : ℤ} (h : (a : ℚ) ≤ q) :
    a ≤ truncQ q := by
  unfold truncQ
  split
  · calc a = ⌊(a : ℚ)⌋ := (Int.floor_intCast a).symm
      _ ≤ ⌊q⌋ := Int.floor_le_floor h
  · calc a = ⌈(a : ℚ)⌉ := (Int.ceil_intCast a).symm
      _ ≤ ⌈q⌉ := Int.ceil_le_ceil h

/-! ## Oscillator (`src/Oscillator.cpp`) -/

namespace Osc

/-- `Oscillator::Waveform` enum. -/
inductive Waveform
  | off
  | square
  | sine
  | triangle
  | saw
  deriving DecidableEq, Repr

/-- Oscillator state: phase accumulator, base frequency, waveform,
octave shift and volume (`Oscillator.h` private fields). -/
structure Oscillator where
  phase : ℚ
  frequency : ℚ
  waveform : Waveform
  octaveShift : ℤ
  volume : ℚ
  deriving DecidableEq, Repr

/-- `Oscillator::Oscillator()` default constructor. -/
def mk0 : Oscillator :=
  { phase := 0, frequency := 440, waveform := .square, octaveShift := 0, volume := 1 }

/-- `Oscillator::setFrequency`: constrain to 0.1 Hz – 20 kHz. -/
def setFrequency (o : Oscillator) (freq : ℚ) : Oscillator :=
  { o with frequency := constrainQ freq (1/10) 20000 }

/-- `Oscillator::setWaveform`. -/
def setWaveform (o : Oscillator) (wf : Waveform) : Oscillator :=
  { o with waveform := wf }

/-- `Oscillator::setOctaveShift`: constrain to `{-1, 0, 1}`. -/
def setOctaveShift (o : Oscillator) (shift : ℤ) : Oscillator :=
  { o with octaveShift := constrainI shift (-1) 1 }

/-- `Oscillator::setVolume`: constrain to `[0, 1]`. -/
def setVolume (o : Oscillator) (vol : ℚ) : Oscillator :=
  { o with volume := constrainQ vol 0 1 }

/-- `Oscillator::isActive()`. -/
def isActive (o : Oscillator) : Bool :=
  o.waveform ≠ .off

/-- `Oscillator::calculateShiftedFrequency` (switch on octaveShift). -/
def calculateShiftedFrequency (o : Oscillator) : ℚ :=
  if o.octaveShift = -1 then o.frequency / 2
  else if o.octaveShift = 1 then o.frequency * 2
  else o.frequency

/-- `Oscillator::getEffectiveFrequency`. -/
def getEffectiveFrequency (o : Oscillator) : ℚ :=
  calculateShiftedFrequency o

/-- The 256-entry sine lookup table `Oscillator::SINE_TABLE`. -/
def SINE_TABLE : List ℤ :=
  [0, 804, 1608, 2410, 3212, 4011, 4808, 5602, 6393, 7179, 7962, 8739, 9512, 10278, 11039, 11793,
   12539, 13279, 14010, 14732, 15446, 16151, 16846, 17530, 18204, 18868, 19519, 20159, 20787, 21403, 22005, 22594,
   23170, 23731, 24279, 24811, 25329, 25832, 26319, 26790, 27245, 27683, 28105, 28510, 28898, 29268, 29621, 29956,
   30273, 30571, 30852, 31113, 31356, 31580, 31785, 31971, 32137, 32285, 32412, 32521, 32609, 32678, 32728, 32757,
   32767, 32757, 32728, 32678, 32609, 32521, 32412, 32285, 32137, 31971, 31785, 31580, 31356, 31113, 30852, 30571,
   30273, 29956, 29621, 29268, 28898, 28510, 28105, 27683, 27245, 26790, 26319, 25832, 25329, 24811, 24279, 23731,
   23170, 22594, 22005, 21403, 20787, 20159, 19519, 18868, 18204, 17530, 16846, 16151, 15446, 14732, 14010, 13279,
   12539, 11793, 11039, 10278, 9512, 8739, 7962, 7179, 6393, 5602, 4808, 4011, 3212, 2410, 1608, 804,
   0, -804, -1608, -2410, -3212, -4011, -4808, -5602, -6393, -7179, -7962, -8739, -9512, -10278, -11039, -11793,
   -12539, -13279, -14010, -14732, -15446, -16151, -16846, -17530, -18204, -18868, -19519, -20159, -20787, -21403, -22005, -22594,
   -23170, -23731, -24279, -24811, -25329, -25832, -26319, -26790, -27245, -27683, -28105, -28510, -28898, -29268, -29621, -29956,
   -30273, -30571, -30852, -31113, -31356, -31580, -31785, -31971, -32137, -32285, -32412, -32521, -32609, -32678, -32728, -32757,
   -32767, -32757, -32728, -32678, -32609, -32521, -32412, -32285, -32137, -31971, -31785, -31580, -31356, -31113, -30852, -30571,
   -30273, -29956, -29621, -29268, -28898, -28510, -28105, -27683, -27245, -26790, -26319, -25832, -25329, -24811, -24279, -23731,
   -23170, -22594, -22005, -21403, -20787, -20159, -19519, -18868, -18204, -17530, -16846, -16151, -15446, -14732, -14010, -13279,
   -12539, -11793, -11039, -10278, -9512, -8739, -7962, -7179, -6393, -5602, -4808, -4011, -3212, -2410, -1608, -804]

/-- `Oscillator::generateSquareWave`. -/
def generateSquareWave (o : Oscillator) : ℤ :=
  if o.phase < 1/2 then 32767 else -32768

/-- `Oscillator::generateSineWave`: `(uint8_t)(phase * 256)` table lookup.
The `uint8_t` conversion is modelled as truncation followed by reduction
mod 256 (for `phase ∈ [0,1)` no reduction happens). -/
def generateSineWave (o : Oscillator) : ℤ :=
  SINE_TABLE.getD ((truncQ (o.phase * 256)).toNat % 256) 0

/-- `Oscillator::generateTriangleWave`, with
`OCTAVE_MULTIPLIER = 2`, `SAMPLE_RANGE = 65535`, `SAMPLE_MAX = 32767`. -/
def generateTriangleWave (o : Oscillator) : ℤ :=
  if o.phase < 1/2 then
    wrap16 (truncQ (o.phase * 2 * 65535 - 32767 - 1))
  else
    wrap16 (truncQ ((1 - o.phase) * 2 * 65535 - 32767 - 1))

/-- `Oscillator::generateSawtoothWave`. -/
def generateSawtoothWave (o : Oscillator) : ℤ :=
  wrap16 (truncQ (o.phase * 65535 - 32767 - 1))

/-- `Oscillator::getNextSample(sampleRate)`: waveform dispatch, phase
advance with single conditional wrap, volume scaling with final
`int16_t` cast. Returns the new state and the emitted sample. -/
def getNextSample (o : Oscillator) (sampleRate : ℚ) : Oscillator × ℤ :=
  if o.waveform = .off then (o, 0)
  else
    let sample : ℤ :=
      match o.waveform with
      | .square => generateSquareWave o
      | .sine => generateSineWave o
      | .triangle => generateTriangleWave o
      | .saw => generateSawtoothWave o
      | .off => 0
    let phaseIncrement := getEffectiveFrequency o / sampleRate
    let p := o.phase + phaseIncrement
    let p := if p ≥ 1 then p - 1 else p
    ({ o with phase := p }, wrap16 (truncQ (sample * o.volume)))

/-- `Oscillator::getNextSampleNormalized`: sample divided by 32768. -/
def getNextSampleNormalized (o : Oscillator) (sampleRate : ℚ) : Oscillator × ℚ :=
  let r := getNextSample o sampleRate
  (r.1, (r.2 : ℚ) / 32768)

/-- State after `n` consecutive `getNextSample` calls. -/
def iterateSamples (o : Oscillator) (sampleRate : ℚ) : ℕ → Oscillator
  | 0 => o
  | n + 1 => (getNextSample (iterateSamples o sampleRate n) sampleRate).1

end Osc

/-! ## DelayEffect (`src/DelayEffect.cpp`) -/

namespace Delay

/-- `DelayEffect` state: enable flag, feedback, wet/dry mix, circular
sample buffer and write cursor. -/
structure DelayEffect where
  enabled : Bool
  feedback : ℚ
  wetDryMix : ℚ
  buf : List ℤ
  writeIndex : ℕ
  deriving DecidableEq, Repr

/-- `DelayEffect::calculateBufferSize`:
`(size_t)((timeMs / 1000.0f) * sampleRate) + 10`. -/
def calculateBufferSize (timeMs sampleRate : ℕ) : ℕ :=
  (truncQ ((timeMs : ℚ) / 1000 * sampleRate)).toNat + 10

/-- `DelayEffect::DelayEffect(delayTimeMs, sampleRate)`: allocates the
buffer, zero-fills it (via `reset()`), defaults feedback 0.5, mix 0.3,
disabled. -/
def mk0 (delayTimeMs sampleRate : ℕ) : DelayEffect :=
  { enabled := false
    feedback := 1/2
    wetDryMix := 3/10
    buf := List.replicate (calculateBufferSize delayTimeMs sampleRate) 0
    writeIndex := 0 }

/-- `DelayEffect::setEnabled`. -/
def setEnabled (d : DelayEffect) (en : Bool) : DelayEffect :=
  { d with enabled := en }

/-- `DelayEffect::setFeedback`: constrain to `[0, 0.95]`. -/
def setFeedback (d : DelayEffect) (fb : ℚ) : DelayEffect :=
  { d with feedback := constrainQ fb 0 (95/100) }

/-- `DelayEffect::setMix`: constrain to `[0, 1]`. -/
def setMix (d : DelayEffect) (mix : ℚ) : DelayEffect :=
  { d with wetDryMix := constrainQ mix 0 1 }

/-- `DelayEffect::reset()`: `memset` the buffer to zero and set
`writeIndex = 0`. -/
def reset (d : DelayEffect) : DelayEffect :=
  { d with buf := List.replicate d.buf.length 0, writeIndex := 0 }

/-- `DelayEffect::process(input)`: bypass when disabled; otherwise read the
delayed sample at the write cursor, write back `input + delayed*feedback`
(truncated, clamped), advance the cursor circularly, and output
`dry*(1-mix) + delayed*mix` (truncated, clamped). -/
def process (d : DelayEffect) (input : ℤ) : DelayEffect × ℤ :=
  if !d.enabled then (d, input)
  else
    let delayedSample := d.buf.getD d.writeIndex 0
    let newSample := truncQ ((input : ℚ) + (delayedSample : ℚ) * d.feedback)
    let newSample := constrainI newSample (-32768) 32767
    let buf := d.buf.set d.writeIndex newSample
    let wi := d.writeIndex + 1
    let wi := if wi ≥ buf.length then 0 else wi
    let output := truncQ ((input : ℚ) * (1 - d.wetDryMix) + (delayedSample : ℚ) * d.wetDryMix)
    let output := constrainI output (-32768) 32767
    ({ d with buf := buf, writeIndex := wi }, output)

/-- State after feeding inputs `f 0, …, f (n-1)` through `process`. -/
def run (d : DelayEffect) (f : ℕ → ℤ) : ℕ → DelayEffect
  | 0 => d
  | n + 1 => (process (run d f n) (f n)).1

/-- Output of the `t`-th `process` call (0-indexed). -/
def outAt (d : DelayEffect) (f : ℕ → ℤ) (t : ℕ) : ℤ :=
  (process (run d f t) (f t)).2

end Delay

/-! ## ChorusEffect (`src/ChorusEffect.cpp`) -/

namespace Chorus

/-- `ChorusEffect` state: the LFO oscillator, modulation depth (ms),
wet/dry mix, enable flag, delay buffer and write cursor; `sampleRate`
is the construction-time sample rate. -/
structure ChorusEffect where
  sampleRate : ℕ
  lfo : Osc.Oscillator
  lfoDepthMs : ℚ
  wetDryMix : ℚ
  enabled : Bool
  buf : List ℤ
  writeIndex : ℕ
  deriving DecidableEq, Repr

/-- `ChorusEffect::ChorusEffect(sampleRate)`: sine LFO at 2 Hz full
volume, depth 7 ms, mix 0.4, disabled, buffer sized
`(50/1000)*sampleRate + 100`, zero-filled. -/
def mk0 (sampleRate : ℕ) : ChorusEffect :=
  { sampleRate := sampleRate
    lfo :=
      Osc.setVolume
        (Osc.setFrequency (Osc.setWaveform Osc.mk0 .sine) 2) 1
    lfoDepthMs := 7
    wetDryMix := 4/10
    enabled := false
    buf := List.replicate ((truncQ ((50 : ℚ) / 1000 * sampleRate)).toNat + 100) 0
    writeIndex := 0 }

/-- `ChorusEffect::setEnabled`. -/
def setEnabled (c : ChorusEffect) (en : Bool) : ChorusEffect :=
  { c with enabled := en }

/-- `ChorusEffect::setRate`: constrain to `[0.1, 10]` Hz, delegate to the
LFO oscillator. -/
def setRate (c : ChorusEffect) (hz : ℚ) : ChorusEffect :=
  { c with lfo := Osc.setFrequency c.lfo (constrainQ hz (1/10) 10) }

/-- `ChorusEffect::setDepth`: constrain to `[1, 50]` ms. -/
def setDepth (c : ChorusEffect) (ms : ℚ) : ChorusEffect :=
  { c with lfoDepthMs := constrainQ ms 1 50 }

/-- `ChorusEffect::setMix`: constrain to `[0, 1]`. -/
def setMix (c : ChorusEffect) (mix : ℚ) : ChorusEffect :=
  { c with wetDryMix := constrainQ mix 0 1 }

/-- `ChorusEffect::reset()`: zero the buffer and the cursor; the LFO phase
is deliberately not reset. -/
def reset (c : ChorusEffect) : ChorusEffect :=
  { c with buf := List.replicate c.buf.length 0, writeIndex := 0 }

/-- The fixed base delay `BASE_DELAY_MS = 10.0f`. -/
def BASE_DELAY_MS : ℚ := 10

/-- The wrapped read position computed by the two `while` loops in
`ChorusEffect::readDelayBuffer` (add/subtract `bufferSize` until the
position lies in `[0, bufferSize)`): the unique such representative is
`p - B*⌊p/B⌋`. -/
def wrapPos (p : ℚ) (B : ℕ) : ℚ :=
  p - (B : ℚ) * ⌊p / (B : ℚ)⌋

/-- The two integer buffer positions `index1`, `index2` read by
`ChorusEffect::readDelayBuffer(delayInSamples)`: the wrapped read
position truncated to `int`, and its successor modulo the buffer
size. -/
def readIndices (c : ChorusEffect) (delayInSamples : ℚ) : ℤ × ℤ :=
  let readPos := wrapPos ((c.writeIndex : ℚ) - delayInSamples) c.buf.length
  let index1 := truncQ readPos
  (index1, (index1 + 1) % (c.buf.length : ℤ))

/-- `ChorusEffect::readDelayBuffer(delayInSamples)`: wrap
`writeIndex - delayInSamples` into the buffer, then read with linear
interpolation between the two neighbouring cells `readIndices`. -/
def readDelayBuffer (c : ChorusEffect) (delayInSamples : ℚ) : ℤ :=
  let readPos := wrapPos ((c.writeIndex : ℚ) - delayInSamples) c.buf.length
  let idx := readIndices c delayInSamples
  let fraction := readPos - (idx.1 : ℚ)
  let sample1 := c.buf.getD idx.1.toNat 0
  let sample2 := c.buf.getD idx.2.toNat 0
  wrap16 (truncQ ((sample1 : ℚ) * (1 - fraction) + (sample2 : ℚ) * fraction))

/-- The modulated delay time in milliseconds computed inside
`ChorusEffect::process`: `BASE_DELAY_MS + lfoValue * lfoDepthMs`. -/
def modulatedDelayMs (c : ChorusEffect) (lfoValue : ℚ) : ℚ :=
  BASE_DELAY_MS + lfoValue * c.lfoDepthMs

/-- `ChorusEffect::process(input)`: bypass when disabled; otherwise write
the input at the cursor, draw one normalized LFO sample, compute the
modulated delay, read the buffer with interpolation, mix dry/wet, clamp,
advance the cursor. -/
def process (c : ChorusEffect) (input : ℤ) : ChorusEffect × ℤ :=
  if !c.enabled then (c, input)
  else
    let buf := c.buf.set c.writeIndex input
    let r := Osc.getNextSampleNormalized c.lfo (c.sampleRate : ℚ)
    let lfoValue := r.2
    let delayTimeMs := modulatedDelayMs c lfoValue
    let delayInSamples := delayTimeMs / 1000 * (c.sampleRate : ℚ)
    let delayedSample := readDelayBuffer { c with buf := buf } delayInSamples
    let output := truncQ ((input : ℚ) * (1 - c.wetDryMix) + (delayedSample : ℚ) * c.wetDryMix)
    let output := constrainI output (-32768) 32767
    ({ c with lfo := r.1, buf := buf, writeIndex := (c.writeIndex + 1) % buf.length }, output)

end Chorus

/-! ## ReverbEffect (`src/audio/effects/ReverbEffect.cpp`, Full Freeverb) -/

namespace Reverb

/-- A Freeverb comb filter (`ReverbEffect::CombFilter`): circular buffer,
cursor, feedback, damping coefficients and the int32 filter store. -/
structure CombFilter where
  buf : List ℤ
  bufferIndex : ℕ
  feedback : ℚ
  filterStore : ℤ
  damp1 : ℚ
  damp2 : ℚ
  deriving DecidableEq, Repr

/-- A Freeverb allpass filter (`ReverbEffect::AllpassFilter`). -/
structure AllpassFilter where
  buf : List ℤ
  bufferIndex : ℕ
  deriving DecidableEq, Repr

/-- `ReverbEffect` state. -/
structure ReverbEffect where
  sampleRate : ℕ
  roomSize : ℚ
  damping : ℚ
  wetDryMix : ℚ
  enabled : Bool
  combs : List CombFilter
  allpasses : List AllpassFilter
  deriving DecidableEq, Repr

/-- `PRECISION_SHIFT = 8`: scale factor `1 << 8`. -/
def PRECISION : ℤ := 256

/-- `ReverbEffect::msToSamples`: `(int)(ms * sampleRate / 1000.0f)`. -/
def msToSamples (sampleRate : ℕ) (ms : ℚ) : ℤ :=
  truncQ (ms * sampleRate / 1000)

/-- `COMB_DELAYS_MS` tuning constants. -/
def COMB_DELAYS_MS : List ℚ :=
  [2531/100, 2694/100, 2896/100, 3075/100, 3224/100, 3381/100, 3531/100, 3666/100]

/-- `ALLPASS_DELAYS_MS` tuning constants. -/
def ALLPASS_DELAYS_MS : List ℚ :=
  [1261/100, 10, 773/100, 510/100]

/-- `ReverbEffect::initCombFilter`. -/
def initCombFilter (sampleRate : ℕ) (delayMs : ℚ) : CombFilter :=
  { buf := List.replicate (msToSamples sampleRate delayMs).toNat 0
    bufferIndex := 0
    feedback := 1/2
    filterStore := 0
    damp1 := 1/2
    damp2 := 1/2 }

/-- `ReverbEffect::initAllpassFilter`. -/
def initAllpassFilter (sampleRate : ℕ) (delayMs : ℚ) : AllpassFilter :=
  { buf := List.replicate (msToSamples sampleRate delayMs).toNat 0
    bufferIndex := 0 }

/-- The comb feedback coefficient computed by `ReverbEffect::updateCombs`:
`feedback = 0.28f + roomSize * 0.66f`, constrained to `[0, 0.94]`. -/
def combFeedback (roomSize : ℚ) : ℚ :=
  constrainQ (28/100 + roomSize * (66/100)) 0 (94/100)

/-- `SCALE_DAMPING = 0.4f`. -/
def SCALE_DAMPING : ℚ := 4/10

/-- `ReverbEffect::updateCombs()`: recompute feedback and damping
coefficients of every comb filter from `roomSize` and `damping`. -/
def updateCombs (r : ReverbEffect) : ReverbEffect :=
  let feedback := combFeedback r.roomSize
  let damp := r.damping * SCALE_DAMPING
  { r with combs := r.combs.map fun c =>
      { c with feedback := feedback, damp1 := damp, damp2 := 1 - damp } }

/-- `ReverbEffect::ReverbEffect(sampleRate)`: roomSize 0.5, damping 0.5,
mix 0.3, disabled; 8 combs and 4 allpasses initialized from the tuning
tables; then `updateCombs()`. -/
def mk0 (sampleRate : ℕ) : ReverbEffect :=
  updateCombs
    { sampleRate := sampleRate
      roomSize := 1/2
      damping := 1/2
      wetDryMix := 3/10
      enabled := false
      combs := COMB_DELAYS_MS.map (initCombFilter sampleRate)
      allpasses := ALLPASS_DELAYS_MS.map (initAllpassFilter sampleRate) }

/-- `ReverbEffect::setEnabled`. -/
def setEnabled (r : ReverbEffect) (en : Bool) : ReverbEffect :=
  { r with enabled := en }

/-- `ReverbEffect::setRoomSize`: constrain to `[0, 1]`, then
`updateCombs()`. -/
def setRoomSize (r : ReverbEffect) (size : ℚ) : ReverbEffect :=
  updateCombs { r with roomSize := constrainQ size 0 1 }

/-- `ReverbEffect::setDamping`: constrain to `[0, 1]`, then
`updateCombs()`. -/
def setDamping (r : ReverbEffect) (damp : ℚ) : ReverbEffect :=
  updateCombs { r with damping := constrainQ damp 0 1 }

/-- `ReverbEffect::setMix`: constrain to `[0, 1]`. -/
def setMix (r : ReverbEffect) (mix : ℚ) : ReverbEffect :=
  { r with wetDryMix := constrainQ mix 0 1 }

/-- `ReverbEffect::reset()`: zero every comb and allpass buffer, cursor
and filter store. -/
def reset (r : ReverbEffect) : ReverbEffect :=
  { r with
    combs := r.combs.map fun c =>
      { c with buf := List.replicate c.buf.length 0, bufferIndex := 0, filterStore := 0 }
    allpasses := r.allpasses.map fun a =>
      { a with buf := List.replicate a.buf.length 0, bufferIndex := 0 } }

/-- `FILTER_NOISE_GATE_THRESHOLD * (1 << PRECISION_SHIFT)` = 256. -/
def gateThreshold : ℤ := truncQ (1 * 256)

/-- `ReverbEffect::processComb`: read at cursor, one-pole damping filter on
an int32 store at 8 extra fractional bits, small-value noise gate on the
store, feedback-combine with the input, clamp at the scaled sample range,
store back truncated to int16, advance cursor; the pre-feedback read is
the output. `>> PRECISION_SHIFT` on a (possibly negative) int32 is an
arithmetic shift, i.e. flooring division by 256. -/
def processComb (comb : CombFilter) (input : ℤ) : CombFilter × ℤ :=
  let output := comb.buf.getD comb.bufferIndex 0
  let output32 := output * PRECISION
  let dampedOutput := truncQ ((output32 : ℚ) * comb.damp2)
  let dampedStore := truncQ ((comb.filterStore : ℚ) * comb.damp1)
  let fs := dampedOutput + dampedStore
  let fs := if fs > -gateThreshold ∧ fs < gateThreshold then 0 else fs
  let input32 := input * PRECISION
  let feedback32 := truncQ ((fs : ℚ) * comb.feedback)
  let newValue32 := constrainI (input32 + feedback32) (-32768 * PRECISION) (32767 * PRECISION)
  let buf := comb.buf.set comb.bufferIndex (Int.fdiv newValue32 PRECISION)
  let bi := comb.bufferIndex + 1
  let bi := if bi ≥ buf.length then 0 else bi
  ({ comb with buf := buf, bufferIndex := bi, filterStore := fs }, output)

/-- `ReverbEffect::processAllpass`: `output = bufferOut - input`, store
`input + bufferOut/2`, both at 8 extra fractional bits, clamped, cursor
advanced. -/
def processAllpass (ap : AllpassFilter) (input : ℤ) : AllpassFilter × ℤ :=
  let bufferOut := ap.buf.getD ap.bufferIndex 0
  let input32 := input * PRECISION
  let bufferOut32 := bufferOut * PRECISION
  let output32 := -input32 + bufferOut32
  let store32 := input32 + Int.fdiv bufferOut32 2
  let store32 := constrainI store32 (-32768 * PRECISION) (32767 * PRECISION)
  let buf := ap.buf.set ap.bufferIndex (Int.fdiv store32 PRECISION)
  let bi := ap.bufferIndex + 1
  let bi := if bi ≥ buf.length then 0 else bi
  let output32 := constrainI output32 (-32768 * PRECISION) (32767 * PRECISION)
  ({ ap with buf := buf, bufferIndex := bi }, Int.fdiv output32 PRECISION)

/-- `NOISE_GATE_THRESHOLD = 100`. -/
def NOISE_GATE_THRESHOLD : ℤ := 100

/-- `FIXED_GAIN = 0.015f`, `SCALE_WET = 3.0f`. -/
def FIXED_GAIN : ℚ := 15/1000

def SCALE_WET : ℚ := 3

/-- Run the scaled input through every comb filter in parallel and sum the
outputs (the `for` loop over `combs` in `ReverbEffect::process`). -/
def processCombs (combs : List CombFilter) (input : ℤ) : List CombFilter × ℤ :=
  match combs with
  | [] => ([], 0)
  | c :: rest =>
      let r := processComb c input
      let rr := processCombs rest input
      (r.1 :: rr.1, r.2 + rr.2)

/-- Cascade the allpass filters in series (the four chained
`processAllpass` calls in `ReverbEffect::process`). -/
def processAllpasses (aps : List AllpassFilter) (input : ℤ) : List AllpassFilter × ℤ :=
  match aps with
  | [] => ([], input)
  | a :: rest =>
      let r := processAllpass a input
      let rr := processAllpasses rest r.2
      (r.1 :: rr.1, rr.2)

/-- `ReverbEffect::process(input)`: bypass when disabled; input noise gate;
fixed input gain; parallel combs; combSum divided by 8; series allpasses;
wet scaling; wet/dry mix; clamp; output noise gate. The int16 function
parameters of `processComb`/`processAllpass` are reached through implicit
int32→int16 conversions, modelled by `wrap16`. -/
def process (r : ReverbEffect) (input0 : ℤ) : ReverbEffect × ℤ :=
  if !r.enabled then (r, input0)
  else
    let input := if input0 > -NOISE_GATE_THRESHOLD ∧ input0 < NOISE_GATE_THRESHOLD then 0 else input0
    let scaledInput := truncQ ((input : ℚ) * FIXED_GAIN)
    let rc := processCombs r.combs (wrap16 scaledInput)
    let combSum := rc.2
    let ra := processAllpasses r.allpasses (wrap16 (Int.fdiv combSum 8))
    let allpassOut := ra.2
    let wet := truncQ ((allpassOut : ℚ) * SCALE_WET)
    let dry := input
    let output := truncQ ((dry : ℚ) * (1 - r.wetDryMix) + (wet : ℚ) * r.wetDryMix)
    let output := constrainI output (-32768) 32767
    let output := if output > -NOISE_GATE_THRESHOLD ∧ output < NOISE_GATE_THRESHOLD then 0 else output
    ({ r with combs := rc.1, allpasses := ra.1 }, output)

end Reverb

/-! ## EffectsChain (`src/EffectsChain.cpp`) -/

namespace Chain

/-- `EffectsChain` owns the three effects by value. -/
structure EffectsChain where
  sampleRate : ℕ
  delay : Delay.DelayEffect
  chorus : Chorus.ChorusEffect
  reverb : Reverb.ReverbEffect
  deriving DecidableEq, Repr

/-- `EffectsChain::EffectsChain(sampleRate)`: delay at 300 ms then
feedback 0.5 / mix 0.3 / disabled; chorus rate 1 Hz / depth 5 ms /
mix 0.2 / disabled; reverb roomSize 0.5 / damping 0.5 / mix 0.3 /
disabled. -/
def mk0 (sampleRate : ℕ) : EffectsChain :=
  { sampleRate := sampleRate
    delay :=
      Delay.setEnabled
        (Delay.setMix (Delay.setFeedback (Delay.mk0 300 sampleRate) (1/2)) (3/10)) false
    chorus :=
      Chorus.setEnabled
        (Chorus.setMix (Chorus.setDepth (Chorus.setRate (Chorus.mk0 sampleRate) 1) 5) (2/10)) false
    reverb :=
      Reverb.setEnabled
        (Reverb.setMix (Reverb.setDamping (Reverb.setRoomSize (Reverb.mk0 sampleRate) (1/2)) (1/2)) (3/10)) false }

/-- `EffectsChain::process`: delay → chorus → reverb, each handling its
own bypass. -/
def process (ch : EffectsChain) (input : ℤ) : EffectsChain × ℤ :=
  let rd := Delay.process ch.delay input
  let rc := Chorus.process ch.chorus rd.2
  let rr := Reverb.process ch.reverb rc.2
  ({ ch with delay := rd.1, chorus := rc.1, reverb := rr.1 }, rr.2)

/-- `EffectsChain::reset()`. -/
def reset (ch : EffectsChain) : EffectsChain :=
  { ch with
    delay := Delay.reset ch.delay
    chorus := Chorus.reset ch.chorus
    reverb := Reverb.reset ch.reverb }

end Chain

/-! ## AudioEngine (`src/audio/AudioEngine.cpp`) -/

namespace Engine

/-- `AudioEngine::ChannelMode`. -/
inductive ChannelMode
  | stereoBoth
  | leftOnly
  | rightOnly
  deriving DecidableEq, Repr

/-- The AudioEngine fields the claims touch: target and smoothed
frequency/amplitude, the dynamic frequency range, smoothing factors,
channel mode, the three oscillators, the effects chain, and the task
flag. -/
structure AudioEngine where
  currentFrequency : ℤ
  currentAmplitude : ℤ
  smoothedFrequency : ℚ
  smoothedAmplitude : ℚ
  minFrequency : ℤ
  maxFrequency : ℤ
  pitchSmoothingFactor : ℚ
  volumeSmoothingFactor : ℚ
  channelMode : ChannelMode
  taskRunning : Bool
  oscillator1 : Osc.Oscillator
  oscillator2 : Osc.Oscillator
  oscillator3 : Osc.Oscillator
  effectsChain : Chain.EffectsChain
  deriving DecidableEq, Repr

/-- Default frequency range: the legacy `AudioEngine.h` pins the
playing range to 220–880 Hz (A3–A5); the constructor starts
`currentFrequency`, `minFrequency` at the lower bound and
`maxFrequency` at the upper bound. -/
def DEFAULT_MIN_FREQUENCY : ℤ := 220

def DEFAULT_MAX_FREQUENCY : ℤ := 880

/-- `AudioEngine::AudioEngine()` (fields relevant to the claims; smoothing
factor defaults are abstracted as arguments elsewhere, the exact default
constants live in the current header which only matters for smoothing
speed). -/
def mk0 : AudioEngine :=
  { currentFrequency := DEFAULT_MIN_FREQUENCY
    currentAmplitude := 0
    smoothedFrequency := (DEFAULT_MIN_FREQUENCY : ℚ)
    smoothedAmplitude := 0
    minFrequency := DEFAULT_MIN_FREQUENCY
    maxFrequency := DEFAULT_MAX_FREQUENCY
    pitchSmoothingFactor := 1
    volumeSmoothingFactor := 1
    channelMode := .stereoBoth
    taskRunning := false
    oscillator1 := Osc.mk0
    oscillator2 := Osc.mk0
    oscillator3 := Osc.mk0
    effectsChain := Chain.mk0 22050 }

/-- `AudioEngine::setFrequency`: constrain the target to the current
dynamic range. -/
def setFrequency (e : AudioEngine) (freq : ℤ) : AudioEngine :=
  { e with currentFrequency := constrainI freq e.minFrequency e.maxFrequency }

/-- `AudioEngine::setAmplitude`: constrain to `[0, 100]`. -/
def setAmplitude (e : AudioEngine) (amplitude : ℤ) : AudioEngine :=
  { e with currentAmplitude := constrainI amplitude 0 100 }

/-- `AudioEngine::setFrequencyRange(min,max)`: install the new bounds and
re-constrain both the target and the smoothed frequency into them. The
code performs no validation of `min ≤ max`. -/
def setFrequencyRange (e : AudioEngine) (minFreq maxFreq : ℤ) : AudioEngine :=
  { e with
    minFrequency := minFreq
    maxFrequency := maxFreq
    currentFrequency := constrainI e.currentFrequency minFreq maxFreq
    smoothedFrequency := constrainQ e.smoothedFrequency (minFreq : ℚ) (maxFreq : ℚ) }

/-- `AudioEngine::setOscillatorWaveform`: out-of-range oscillator index is
a no-op. -/
def setOscillatorWaveform (e : AudioEngine) (oscNum : ℤ) (wf : Osc.Waveform) : AudioEngine :=
  if oscNum < 1 ∨ oscNum > 3 then e
  else if oscNum = 1 then { e with oscillator1 := Osc.setWaveform e.oscillator1 wf }
  else if oscNum = 2 then { e with oscillator2 := Osc.setWaveform e.oscillator2 wf }
  else { e with oscillator3 := Osc.setWaveform e.oscillator3 wf }

/-- `AudioEngine::setOscillatorOctave`: invalid index or octave outside
`{-1,0,1}` is a no-op. -/
def setOscillatorOctave (e : AudioEngine) (oscNum octave : ℤ) : AudioEngine :=
  if oscNum < 1 ∨ oscNum > 3 then e
  else if octave < -1 ∨ octave > 1 then e
  else if oscNum = 1 then { e with oscillator1 := Osc.setOctaveShift e.oscillator1 octave }
  else if oscNum = 2 then { e with oscillator2 := Osc.setOctaveShift e.oscillator2 octave }
  else { e with oscillator3 := Osc.setOctaveShift e.oscillator3 octave }

/-- `AudioEngine::setOscillatorVolume`: invalid index is a no-op. -/
def setOscillatorVolume (e : AudioEngine) (oscNum : ℤ) (volume : ℚ) : AudioEngine :=
  if oscNum < 1 ∨ oscNum > 3 then e
  else if oscNum = 1 then { e with oscillator1 := Osc.setVolume e.oscillator1 volume }
  else if oscNum = 2 then { e with oscillator2 := Osc.setVolume e.oscillator2 volume }
  else { e with oscillator3 := Osc.setVolume e.oscillator3 volume }

/-- `AudioEngine::setDefaultSettings()`: amplitude 0; osc 1 triangle,
base octave, volume 1.0; osc 2 off, base octave, volume 0.6; osc 3 off,
base octave, volume 0.5. -/
def setDefaultSettings (e : AudioEngine) : AudioEngine :=
  let e := setAmplitude e 0
  let e := setOscillatorVolume (setOscillatorOctave (setOscillatorWaveform e 1 .triangle) 1 0) 1 1
  let e := setOscillatorVolume (setOscillatorOctave (setOscillatorWaveform e 2 .off) 2 0) 2 (6/10)
  setOscillatorVolume (setOscillatorOctave (setOscillatorWaveform e 3 .off) 3 0) 3 (5/10)

/-- `AudioEngine::startAudioTask()`: sets `taskRunning` and launches the
generation loop. -/
def startAudioTask (e : AudioEngine) : AudioEngine :=
  if e.taskRunning then e else { e with taskRunning := true }

/-- `AudioEngine::begin()` as a state transformer, parameterized by
whether the I2S peripheral initialization (`setupI2S()`) succeeds: on
failure it returns before touching any engine state; on success it
applies the default settings and starts the generation task. The C++
function returns `void`. -/
def begin (i2sOk : Bool) (e : AudioEngine) : AudioEngine :=
  if !i2sOk then e
  else startAudioTask (setDefaultSettings e)

/-- The value a call to `AudioEngine::begin()` evaluates to at the call
site: the function's return type is `void`, so the caller observes
`Unit` whatever happened inside. -/
def beginResult (i2sOk : Bool) (e : AudioEngine) : Unit :=
  let _ := begin i2sOk e
  ()

/-- The oscillator-mixing step of `AudioEngine::generateAudioBuffer`:
pull one sample from each active oscillator, sum into an int32
accumulator, count the active oscillators, and average (`int32`
division truncates toward zero); zero when none is active. Returns the
advanced oscillators, the active count, and the mixed sample (before
the `int16_t sample = ...` conversion, which `mixedToSample` applies). -/
def mixOscillators (o1 o2 o3 : Osc.Oscillator) (sampleRate : ℚ) :
    (Osc.Oscillator × Osc.Oscillator × Osc.Oscillator) × ℤ × ℤ :=
  let r1 := if Osc.isActive o1 then
      (let s := Osc.getNextSample o1 sampleRate; (s.1, s.2, (1 : ℤ)))
    else (o1, 0, 0)
  let r2 := if Osc.isActive o2 then
      (let s := Osc.getNextSample o2 sampleRate; (s.1, s.2, (1 : ℤ)))
    else (o2, 0, 0)
  let r3 := if Osc.isActive o3 then
      (let s := Osc.getNextSample o3 sampleRate; (s.1, s.2, (1 : ℤ)))
    else (o3, 0, 0)
  let mixedSample := r1.2.1 + r2.2.1 + r3.2.1
  let activeCount := r1.2.2 + r2.2.2 + r3.2.2
  ((r1.1, r2.1, r3.1), activeCount,
    if activeCount > 0 then Int.tdiv mixedSample activeCount else 0)

/-- `int16_t sample = (activeCount > 0) ? (mixedSample / activeCount) : 0`:
the int32 average lands in an `int16_t`. -/
def mixedToSample (mixed : ℤ) : ℤ :=
  wrap16 mixed

/-- `MASTER_NOISE_GATE_THRESHOLD = 150`. -/
def MASTER_NOISE_GATE_THRESHOLD : ℤ := 150

/-- The master output noise gate in `AudioEngine::generateAudioBuffer`:
samples strictly inside `(-150, 150)` are forced to exactly zero. -/
def masterGate (s : ℤ) : ℤ :=
  if s > -MASTER_NOISE_GATE_THRESHOLD ∧ s < MASTER_NOISE_GATE_THRESHOLD then 0 else s

/-- Channel routing of one output frame `(left, right)` in
`AudioEngine::generateAudioBuffer`. -/
def routeFrame (mode : ChannelMode) (s : ℤ) : ℤ × ℤ :=
  match mode with
  | .leftOnly => (s, 0)
  | .rightOnly => (0, s)
  | .stereoBoth => (s, s)

/-- One iteration of the per-sample loop body of
`AudioEngine::generateAudioBuffer`: mix, apply the amplitude gain
(`(int16_t)(sample * gain)`), run the effects chain, apply the master
noise gate, route to the stereo frame. -/
def generateSample (e : AudioEngine) : AudioEngine × (ℤ × ℤ) :=
  let m := mixOscillators e.oscillator1 e.oscillator2 e.oscillator3 ((22050 : ℚ))
  let sample := mixedToSample m.2.2
  let gain := e.smoothedAmplitude / 100
  let scaled := wrap16 (truncQ ((sample : ℚ) * gain))
  let rc := Chain.process e.effectsChain scaled
  let gated := masterGate rc.2
  ({ e with
      oscillator1 := m.1.1
      oscillator2 := m.1.2.1
      oscillator3 := m.1.2.2
      effectsChain := rc.1 },
    routeFrame e.channelMode gated)

end Engine

/-! ## Generic helper lemmas -/

theorem constrainI_eq_self {z lo hi : ℤ} (h1 : lo ≤ z) (h2 : z ≤ hi) :
    constrainI z lo hi = z := by
  unfold constrainI
  split
  · omega
  · split <;> omega

theorem getD_set_self {l : List ℤ} {i : ℕ} {v : ℤ} (h : i < l.length) :
    (l.set i v).getD i 0 = v := by
  simp [List.getD_eq_getElem?_getD, List.getElem?_set_self', h]

theorem getD_set_other {l : List ℤ} {i j : ℕ} {v : ℤ} (h : i ≠ j) :
    (l.set i v).getD j 0 = l.getD j 0 := by
  simp [List.getD_eq_getElem?_getD, List.getElem?_set_ne h]

theorem getD_replicate {n j : ℕ} : (List.replicate n (0 : ℤ)).getD j 0 = 0 := by
  simp only [List.getD_eq_getElem?_getD, List.getElem?_replicate]
  split <;> rfl

theorem foldl_invariant {α β : Type} (P : α → Prop) (g : α → β → α)
    (l : List β) (init : α) (h0 : P init) (hstep : ∀ a b, P a → P (g a b)) :
    P (l.foldl g init) := by
  induction l generalizing init with
  | nil => exact h0
  | cons x xs ih => exact ih (g init x) (hstep init x h0)

/-! ## Claim C1: reverb comb feedback stability -/

theorem combFeedback_le (r : ℚ) : Reverb.combFeedback r ≤ 94/100 := by
  unfold Reverb.combFeedback constrainQ
  split
  · norm_num
  · split <;> linarith

/-- Every comb filter of a reverb state carries the coefficient computed
by `updateCombs` from the stored (clamped) room size. -/
def combsUpdated (r : Reverb.ReverbEffect) : Prop :=
  ∀ c ∈ r.combs, c.feedback = Reverb.combFeedback r.roomSize

theorem combsUpdated_updateCombs (r : Reverb.ReverbEffect) :
    combsUpdated (Reverb.updateCombs r) := by
  intro c hc
  unfold Reverb.updateCombs at hc
  simp only [List.mem_map] at hc
  obtain ⟨c0, _, rfl⟩ := hc
  rfl

theorem combsUpdated_setRoomSize (r : Reverb.ReverbEffect) (s : ℚ) :
    combsUpdated (Reverb.setRoomSize r s) :=
  combsUpdated_updateCombs _

/-- C1: for every `roomSize` argument and every sequence of
`ReverbEffect::setRoomSize` calls starting from the constructed reverb,
every comb filter's feedback coefficient equals
`clamp(0.28 + roomSize·0.66, 0, 0.94)` for the stored room size, is at
most 0.94, and in particular is strictly below 1.0. -/
theorem reverb_comb_feedback_stable (sizes : List ℚ) :
    ∀ c ∈ (sizes.foldl Reverb.setRoomSize (Reverb.mk0 22050)).combs,
      c.feedback =
        constrainQ (28/100 + (sizes.foldl Reverb.setRoomSize (Reverb.mk0 22050)).roomSize * (66/100))
          0 (94/100) ∧
      c.feedback ≤ 94/100 ∧ c.feedback < 1 := by
  have hupd : combsUpdated (sizes.foldl Reverb.setRoomSize (Reverb.mk0 22050)) := by
    apply foldl_invariant combsUpdated Reverb.setRoomSize sizes (Reverb.mk0 22050)
    · exact combsUpdated_updateCombs _
    · intro a b _
      exact combsUpdated_setRoomSize a b
  intro c hc
  have hfb := hupd c hc
  refine ⟨hfb, ?_, ?_⟩
  · rw [hfb]; exact combFeedback_le _
  · rw [hfb]
    calc Reverb.combFeedback _ ≤ 94/100 := combFeedback_le _
      _ < 1 := by norm_num

/-! ## Claim C10: master output noise gate -/

/-- C10: every sample value placed into an output frame by the generation
loop (after the effects chain, master noise gate and channel routing) is
either exactly zero or has magnitude at least 150; nonzero samples of
magnitude 1–149 are never emitted, on either channel, in any channel
mode. -/
theorem engine_master_gate_frame (s : ℤ) (mode : Engine.ChannelMode) :
    ((Engine.routeFrame mode (Engine.masterGate s)).1 = 0 ∨
      150 ≤ ((Engine.routeFrame mode (Engine.masterGate s)).1).natAbs) ∧
    ((Engine.routeFrame mode (Engine.masterGate s)).2 = 0 ∨
      150 ≤ ((Engine.routeFrame mode (Engine.masterGate s)).2).natAbs) := by
  have hg : Engine.masterGate s = 0 ∨ 150 ≤ (Engine.masterGate s).natAbs := by
    unfold Engine.masterGate Engine.MASTER_NOISE_GATE_THRESHOLD
    split
    · exact Or.inl rfl
    · rename_i h
      right
      omega
  cases mode with
  | stereoBoth => exact ⟨hg, hg⟩
  | leftOnly => exact ⟨hg, Or.inl rfl⟩
  | rightOnly => exact ⟨Or.inl rfl, hg⟩


/-! ## Claim C9: `begin()` failure semantics -/

/-- C9 counterexample: `AudioEngine::begin()` has return type `void`, so
its result is indistinguishable between the failure and the success of
the output-peripheral initialization — no boolean failure result is
surfaced to the caller (the boolean lives only inside `setupI2S`). -/
theorem engine_begin_no_boolean_result :
    Engine.beginResult false Engine.mk0 = Engine.beginResult true Engine.mk0 := rfl

/-- C9 (amended): when `setupI2S()` fails, `begin()` returns before
applying default settings or starting the generation task — the engine
state is completely unchanged, hence still idle; when it succeeds, the
generation task is started. -/
theorem engine_begin_failure_aborts (e : Engine.AudioEngine) :
    Engine.begin false e = e ∧ (Engine.begin true e).taskRunning = true := by
  constructor
  · rfl
  · unfold Engine.begin Engine.startAudioTask
    simp only [Bool.not_true, Bool.false_eq_true, if_false]
    split
    · rename_i h
      simpa using h
    · rfl

/-! ## Claim C8: `DelayEffect::reset()` -/

/-- C8 counterexample: `reset()` does not leave the write cursor where it
was — the code sets `writeIndex = 0`. Starting from a state whose cursor
sits at 2, the cursor after `reset()` differs from the cursor before. -/
theorem delay_reset_cursor_cx :
    (Delay.reset
        { enabled := true, feedback := 0, wetDryMix := 1,
          buf := [4, 5, 6], writeIndex := 2 }).writeIndex ≠
      ({ enabled := true, feedback := 0, wetDryMix := 1,
          buf := [4, 5, 6], writeIndex := 2 : Delay.DelayEffect }).writeIndex := by
  decide

/-- C8 (amended): `reset()` zeroes every cell of the delay buffer
(preserving its size) and resets the write cursor to position 0; the
enable flag, feedback and mix are untouched. -/
theorem delay_reset_zeroes (d : Delay.DelayEffect) :
    (Delay.reset d).writeIndex = 0 ∧
    (Delay.reset d).buf.length = d.buf.length ∧
    (∀ j : ℕ, (Delay.reset d).buf.getD j 0 = 0) ∧
    (Delay.reset d).enabled = d.enabled ∧
    (Delay.reset d).feedback = d.feedback ∧
    (Delay.reset d).wetDryMix = d.wetDryMix := by
  refine ⟨rfl, ?_, fun j => ?_, rfl, rfl, rfl⟩
  · simp [Delay.reset]
  · exact getD_replicate

/-! ## Claim C3: fully-bypassed effects chain is the identity -/

/-- C3: when the delay, chorus and reverb stages are all disabled,
`EffectsChain::process` returns its input unchanged and leaves every
piece of effect state (buffers, cursors, filter stores, LFO) exactly as
it was. -/
theorem chain_disabled_identity (ch : Chain.EffectsChain) (x : ℤ)
    (hd : ch.delay.enabled = false) (hc : ch.chorus.enabled = false)
    (hr : ch.reverb.enabled = false) :
    Chain.process ch x = (ch, x) := by
  unfold Chain.process Delay.process Chorus.process Reverb.process
  simp [hd, hc, hr]

/-- A concrete fully-disabled chain state used to witness
`chain_disabled_identity`. -/
def chainAllOff : Chain.EffectsChain :=
  { sampleRate := 10
    delay := { enabled := false, feedback := 0, wetDryMix := 1, buf := [3, -4], writeIndex := 1 }
    chorus := { sampleRate := 10, lfo := Osc.mk0, lfoDepthMs := 7, wetDryMix := 2/5,
                enabled := false, buf := [9, 8, 7], writeIndex := 2 }
    reverb := { sampleRate := 10, roomSize := 1/2, damping := 1/2, wetDryMix := 3/10,
                enabled := false,
                combs := [{ buf := [1, 2], bufferIndex := 0, feedback := 1/2,
                            filterStore := 0, damp1 := 1/5, damp2 := 4/5 }],
                allpasses := [{ buf := [5], bufferIndex := 0 }] } }

theorem chain_disabled_identity_witness :
    Chain.process chainAllOff 1234 = (chainAllOff, 1234) :=
  chain_disabled_identity chainAllOff 1234 rfl rfl rfl


/-! ## Claim C5: oscillator mixing averages over the active count -/

/-- C5: in the generation loop's per-sample mix, if at least one
oscillator is active (waveform not `OFF`) and every active oscillator
emits the same value `v`, the mixed (pre-effects) sample equals `v`
exactly: the int32 sum is divided by the count of active oscillators
only, so an `OFF` oscillator never enters the average. -/
theorem engine_mix_average (o1 o2 o3 : Osc.Oscillator) (rate : ℚ) (v : ℤ)
    (h1 : Osc.isActive o1 = true → (Osc.getNextSample o1 rate).2 = v)
    (h2 : Osc.isActive o2 = true → (Osc.getNextSample o2 rate).2 = v)
    (h3 : Osc.isActive o3 = true → (Osc.getNextSample o3 rate).2 = v)
    (hN : Osc.isActive o1 = true ∨ Osc.isActive o2 = true ∨ Osc.isActive o3 = true) :
    (Engine.mixOscillators o1 o2 o3 rate).2.2 = v := by
  unfold Engine.mixOscillators
  have d1 : Int.tdiv v 1 = v := Int.tdiv_one v
  have d2 : Int.tdiv (2 * v) 2 = v := Int.mul_tdiv_cancel_left v (by norm_num)
  have d3 : Int.tdiv (3 * v) 3 = v := Int.mul_tdiv_cancel_left v (by norm_num)
  rcases ha1 : Osc.isActive o1 <;> rcases ha2 : Osc.isActive o2 <;> rcases ha3 : Osc.isActive o3 <;>
    simp only [ha1, ha2, ha3, if_true, if_false, Bool.false_eq_true, forall_true_left,
      false_or, or_false] at h1 h2 h3 hN ⊢
  · rw [h3, if_pos (by norm_num), show (0:ℤ) + 0 + v = v from by ring]
    exact d1
  · rw [h2, if_pos (by norm_num), show (0:ℤ) + v + 0 = v from by ring]
    exact d1
  · rw [h2, h3, if_pos (by norm_num), show (0:ℤ) + v + v = 2 * v from by ring,
      show (0:ℤ) + 1 + 1 = 2 from by ring]
    exact d2
  · rw [h1, if_pos (by norm_num), show v + 0 + 0 = v from by ring]
    exact d1
  · rw [h1, h3, if_pos (by norm_num), show v + 0 + v = 2 * v from by ring,
      show (1:ℤ) + 0 + 1 = 2 from by ring]
    exact d2
  · rw [h1, h2, if_pos (by norm_num), show v + v + 0 = 2 * v from by ring,
      show (1:ℤ) + 1 + 0 = 2 from by ring]
    exact d2
  · rw [h1, h2, h3, if_pos (by norm_num), show v + v + v = 3 * v from by ring,
      show (1:ℤ) + 1 + 1 = 3 from by ring]
    exact d3

/-- A default-constructed oscillator switched to a square wave (emits
the full-scale 32767 at phase 0). -/
def oscSq : Osc.Oscillator := Osc.setWaveform Osc.mk0 .square

/-- A default-constructed oscillator switched off. -/
def oscOff : Osc.Oscillator := Osc.setWaveform Osc.mk0 .off

theorem engine_mix_average_witness :
    (Engine.mixOscillators oscSq oscSq oscOff 22050).2.2 = 32767 :=
  engine_mix_average oscSq oscSq oscOff 22050 32767
    (fun _ => by simp [Osc.getNextSample, oscSq, Osc.mk0, Osc.setWaveform, Osc.generateSquareWave,
      Osc.getEffectiveFrequency, Osc.calculateShiftedFrequency, truncQ, wrap16])
    (fun _ => by simp [Osc.getNextSample, oscSq, Osc.mk0, Osc.setWaveform, Osc.generateSquareWave,
      Osc.getEffectiveFrequency, Osc.calculateShiftedFrequency, truncQ, wrap16])
    (fun h => absurd h (by simp [Osc.isActive, oscOff, Osc.mk0, Osc.setWaveform]))
    (Or.inl (by simp [Osc.isActive, oscSq, Osc.mk0, Osc.setWaveform]))

/-! ## Claim C6: target frequency stays in the dynamic range -/

/-- A call to either of the two frequency-related AudioEngine setters. -/
inductive FreqCall where
  | setF (freq : ℤ)
  | setRange (lo hi : ℤ)
  deriving DecidableEq, Repr

def applyFreqCall (e : Engine.AudioEngine) : FreqCall → Engine.AudioEngine
  | .setF freq => Engine.setFrequency e freq
  | .setRange lo hi => Engine.setFrequencyRange e lo hi

/-- A `setFrequencyRange` call with a non-inverted range. -/
def rangeValid : FreqCall → Prop
  | .setF _ => True
  | .setRange lo hi => lo ≤ hi

instance (c : FreqCall) : Decidable (rangeValid c) := by
  cases c <;> (unfold rangeValid; infer_instance)

/-- The C6 invariant: the target frequency lies in
`[minFrequency, maxFrequency]` (which requires the range itself to be
non-empty). -/
def freqInvariant (e : Engine.AudioEngine) : Prop :=
  e.minFrequency ≤ e.maxFrequency ∧
  e.minFrequency ≤ e.currentFrequency ∧ e.currentFrequency ≤ e.maxFrequency

instance (e : Engine.AudioEngine) : Decidable (freqInvariant e) := by
  unfold freqInvariant; infer_instance

theorem constrainI_mem {z lo hi : ℤ} (h : lo ≤ hi) :
    lo ≤ constrainI z lo hi ∧ constrainI z lo hi ≤ hi := by
  unfold constrainI
  split
  · omega
  · split <;> omega

theorem freqInvariant_apply (e : Engine.AudioEngine) (c : FreqCall)
    (he : freqInvariant e) (hc : rangeValid c) : freqInvariant (applyFreqCall e c) := by
  obtain ⟨hmm, h1, h2⟩ := he
  cases c with
  | setF freq =>
      have := constrainI_mem (z := freq) hmm
      exact ⟨hmm, this.1, this.2⟩
  | setRange lo hi =>
      unfold rangeValid at hc
      have := constrainI_mem (z := e.currentFrequency) hc
      exact ⟨hc, this.1, this.2⟩

/-- C6 counterexample: the claim fails for an inverted range.
`setFrequencyRange(1000, 500)` performs no validation; afterwards
`minFrequency = 1000 > 500 = maxFrequency` and the re-constrained target
(1000) does not lie in the (empty) interval `[1000, 500]`. -/
theorem engine_target_freq_cx :
    ¬ freqInvariant ([FreqCall.setRange 1000 500].foldl applyFreqCall Engine.mk0) := by
  decide

/-- C6 (amended): after any sequence of `setFrequency` and
`setFrequencyRange` calls in which every `setFrequencyRange` call uses a
non-inverted range (`min ≤ max`), and starting from any state satisfying
the invariant (the constructor state does), the target frequency always
lies in `[minFrequency, maxFrequency]`. -/
theorem engine_target_freq_clamped (cs : List FreqCall)
    (hv : ∀ c ∈ cs, rangeValid c) (e0 : Engine.AudioEngine) (h0 : freqInvariant e0) :
    freqInvariant (cs.foldl applyFreqCall e0) := by
  induction cs generalizing e0 with
  | nil => exact h0
  | cons c cs ih =>
      exact ih (fun d hd => hv d (List.mem_cons_of_mem c hd)) _
        (freqInvariant_apply e0 c h0 (hv c (List.mem_cons_self c cs)))

theorem engine_target_freq_clamped_witness :
    freqInvariant ([FreqCall.setF 500, FreqCall.setRange 300 600].foldl applyFreqCall Engine.mk0) :=
  engine_target_freq_clamped [FreqCall.setF 500, FreqCall.setRange 300 600]
    (by decide) Engine.mk0 (by decide)

/-! ## Claim C7: chorus modulated delay and buffer safety -/

theorem wrapPos_bounds (p : ℚ) (B : ℕ) (hB : 0 < B) :
    0 ≤ Chorus.wrapPos p B ∧ Chorus.wrapPos p B < B := by
  have hBq : (0 : ℚ) < (B : ℚ) := by exact_mod_cast hB
  have hfr : Chorus.wrapPos p B = (B : ℚ) * Int.fract (p / B) := by
    unfold Chorus.wrapPos Int.fract
    field_simp
  rw [hfr]
  constructor
  · exact mul_nonneg (le_of_lt hBq) (Int.fract_nonneg _)
  · calc (B : ℚ) * Int.fract (p / B) < (B : ℚ) * 1 :=
        (mul_lt_mul_left hBq).2 (Int.fract_lt_one _)
      _ = B := mul_one _

theorem readIndices_bounds (c : Chorus.ChorusEffect) (d : ℚ) (hB : 0 < c.buf.length) :
    0 ≤ (Chorus.readIndices c d).1 ∧ (Chorus.readIndices c d).1 < (c.buf.length : ℤ) ∧
    0 ≤ (Chorus.readIndices c d).2 ∧ (Chorus.readIndices c d).2 < (c.buf.length : ℤ) := by
  have hb := wrapPos_bounds ((c.writeIndex : ℚ) - d) c.buf.length hB
  set rp := Chorus.wrapPos ((c.writeIndex : ℚ) - d) c.buf.length with hrp
  have hBz : (0 : ℤ) < (c.buf.length : ℤ) := by exact_mod_cast hB
  have h1 : (Chorus.readIndices c d).1 = ⌊rp⌋ := by
    have h : (Chorus.readIndices c d).1 = truncQ rp := rfl
    rw [h]
    unfold truncQ
    rw [if_pos hb.1]
  have hf0 : 0 ≤ ⌊rp⌋ := Int.floor_nonneg.2 hb.1
  have hfB : ⌊rp⌋ < (c.buf.length : ℤ) := Int.floor_lt.2 (by exact_mod_cast hb.2)
  have h2 : (Chorus.readIndices c d).2 = ((Chorus.readIndices c d).1 + 1) % (c.buf.length : ℤ) := rfl
  refine ⟨by rw [h1]; exact hf0, by rw [h1]; exact hfB, ?_, ?_⟩
  · rw [h2]; exact Int.emod_nonneg _ (by omega)
  · rw [h2]; exact Int.emod_lt_of_pos _ hBz

/-- C7 counterexample: the claim that the modulated delay is always
non-negative and its sample offset always below the allocated buffer
size is false. With depth set to 50 ms (reachable through `setDepth`) and
the most negative sine-LFO value −32767/32768, the modulated delay is
`10 − 50·(32767/32768) ≈ −40 ms < 0`; symmetrically, at the most positive
LFO value the sample offset (≈ 1322 samples at 22050 Hz) is not below the
allocated buffer size (1202 samples). -/
theorem chorus_delay_cx :
    Chorus.modulatedDelayMs (Chorus.setDepth (Chorus.mk0 22050) 50) (-(32767/32768)) < 0 ∧
    ((Chorus.setDepth (Chorus.mk0 22050) 50).buf.length : ℤ) ≤
      truncQ (Chorus.modulatedDelayMs (Chorus.setDepth (Chorus.mk0 22050) 50) (32767/32768) / 1000 * 22050) := by
  constructor
  · norm_num [Chorus.modulatedDelayMs, Chorus.BASE_DELAY_MS, Chorus.setDepth, Chorus.mk0, constrainQ]
  · norm_num [Chorus.modulatedDelayMs, Chorus.BASE_DELAY_MS, Chorus.setDepth, Chorus.mk0,
      constrainQ, truncQ]

/-- C7 (amended): for any depth reachable through `setDepth` (in
`[1, 50]` ms) and any LFO value in `[-1, 1]`, the modulated delay lies in
`[10−depth, 10+depth] ⊆ [−40, 60]` ms — it may be negative or exceed the
buffer capacity — but `readDelayBuffer` wraps the read position modulo
the buffer size, so both interpolation indices always lie inside
`[0, bufferSize)` and no out-of-bounds access occurs. -/
theorem chorus_modulated_delay_safe (c : Chorus.ChorusEffect) (lfoValue : ℚ)
    (hB : 0 < c.buf.length)
    (hd1 : 1 ≤ c.lfoDepthMs) (hd2 : c.lfoDepthMs ≤ 50)
    (hl1 : -1 ≤ lfoValue) (hl2 : lfoValue ≤ 1) :
    (10 - c.lfoDepthMs ≤ Chorus.modulatedDelayMs c lfoValue ∧
      Chorus.modulatedDelayMs c lfoValue ≤ 10 + c.lfoDepthMs ∧
      -40 ≤ Chorus.modulatedDelayMs c lfoValue ∧ Chorus.modulatedDelayMs c lfoValue ≤ 60) ∧
    (0 ≤ (Chorus.readIndices c (Chorus.modulatedDelayMs c lfoValue / 1000 * (c.sampleRate : ℚ))).1 ∧
      (Chorus.readIndices c (Chorus.modulatedDelayMs c lfoValue / 1000 * (c.sampleRate : ℚ))).1 < (c.buf.length : ℤ) ∧
      0 ≤ (Chorus.readIndices c (Chorus.modulatedDelayMs c lfoValue / 1000 * (c.sampleRate : ℚ))).2 ∧
      (Chorus.readIndices c (Chorus.modulatedDelayMs c lfoValue / 1000 * (c.sampleRate : ℚ))).2 < (c.buf.length : ℤ)) := by
  constructor
  · unfold Chorus.modulatedDelayMs Chorus.BASE_DELAY_MS
    have hlo : -c.lfoDepthMs ≤ lfoValue * c.lfoDepthMs := by nlinarith
    have hhi : lfoValue * c.lfoDepthMs ≤ c.lfoDepthMs := by nlinarith
    exact ⟨by linarith, by linarith, by linarith, by linarith⟩
  · exact readIndices_bounds c _ hB

/-- A small concrete chorus state used to witness
`chorus_modulated_delay_safe`. -/
def chorusW : Chorus.ChorusEffect :=
  { sampleRate := 10, lfo := Osc.mk0, lfoDepthMs := 7, wetDryMix := 2/5,
    enabled := true, buf := [0, 0, 0, 0, 0], writeIndex := 2 }

theorem chorus_modulated_delay_safe_witness :
    -40 ≤ Chorus.modulatedDelayMs chorusW (1/2) ∧
    (Chorus.readIndices chorusW
        (Chorus.modulatedDelayMs chorusW (1/2) / 1000 * (chorusW.sampleRate : ℚ))).1 <
      (chorusW.buf.length : ℤ) :=
  ⟨(chorus_modulated_delay_safe chorusW (1/2) (by decide) (by norm_num [chorusW])
      (by norm_num [chorusW]) (by norm_num) (by norm_num)).1.2.2.1,
    (chorus_modulated_delay_safe chorusW (1/2) (by decide) (by norm_num [chorusW])
      (by norm_num [chorusW]) (by norm_num) (by norm_num)).2.2.1⟩

/-! ## Claim C2: oscillator output range and phase invariant -/

theorem getNextSample_isSample16 (o : Osc.Oscillator) (rate : ℚ) :
    isSample16 ((Osc.getNextSample o rate).2) := by
  unfold Osc.getNextSample
  split
  · exact ⟨by norm_num, by norm_num⟩
  · exact wrap16_isSample16 _

theorem getNextSample_phase (o : Osc.Oscillator) (rate : ℚ) (h : ¬ o.waveform = .off) :
    (Osc.getNextSample o rate).1.phase =
      if o.phase + Osc.getEffectiveFrequency o / rate ≥ 1
        then o.phase + Osc.getEffectiveFrequency o / rate - 1
        else o.phase + Osc.getEffectiveFrequency o / rate := by
  unfold Osc.getNextSample
  rw [if_neg h]

theorem getNextSample_phase_off (o : Osc.Oscillator) (rate : ℚ) (h : o.waveform = .off) :
    (Osc.getNextSample o rate).1.phase = o.phase := by
  unfold Osc.getNextSample
  rw [if_pos h]

theorem getNextSample_freq (o : Osc.Oscillator) (rate : ℚ) :
    (Osc.getNextSample o rate).1.frequency = o.frequency ∧
    (Osc.getNextSample o rate).1.octaveShift = o.octaveShift ∧
    (Osc.getNextSample o rate).1.waveform = o.waveform := by
  unfold Osc.getNextSample
  split
  · exact ⟨rfl, rfl, rfl⟩
  · exact ⟨rfl, rfl, rfl⟩

theorem getNextSample_eff (o : Osc.Oscillator) (rate : ℚ) :
    Osc.getEffectiveFrequency (Osc.getNextSample o rate).1 = Osc.getEffectiveFrequency o := by
  obtain ⟨hf, ho, _⟩ := getNextSample_freq o rate
  unfold Osc.getEffectiveFrequency Osc.calculateShiftedFrequency
  rw [hf, ho]

theorem osc_phase_step (o : Osc.Oscillator) (rate : ℚ)
    (h0 : 0 ≤ o.phase) (h1 : o.phase < 1) (hr : 0 < rate)
    (hf : 0 ≤ Osc.getEffectiveFrequency o) (hle : Osc.getEffectiveFrequency o ≤ rate) :
    0 ≤ (Osc.getNextSample o rate).1.phase ∧ (Osc.getNextSample o rate).1.phase < 1 := by
  by_cases hw : o.waveform = .off
  · rw [getNextSample_phase_off o rate hw]
    exact ⟨h0, h1⟩
  · rw [getNextSample_phase o rate hw]
    have hinc0 : 0 ≤ Osc.getEffectiveFrequency o / rate := div_nonneg hf (le_of_lt hr)
    have hinc1 : Osc.getEffectiveFrequency o / rate ≤ 1 := (div_le_one hr).2 hle
    split <;> rename_i hcase <;> constructor <;> linarith

/-- C2 counterexample: the phase invariant is violated for
setter-reachable settings. Set frequency 19845 Hz, take one sample at
22050 Hz (phase becomes 0.9), then set frequency 20000 Hz and octave
shift +1 (effective frequency 40000 Hz > sample rate). The next call
pushes the phase to `0.9 + 40000/22050 − 1 = 7559/4410 ≈ 1.71`, outside
`[0, 1)` — the single conditional wrap cannot catch an increment above
1. -/
theorem osc_phase_escape_cx :
    ¬ ((Osc.getNextSample (Osc.setOctaveShift (Osc.setFrequency
        (Osc.getNextSample (Osc.setFrequency Osc.mk0 19845) 22050).1 20000) 1) 22050).1.phase < 1) := by
  simp +decide only [Osc.getNextSample, Osc.setFrequency, Osc.setOctaveShift, Osc.mk0,
    Osc.getEffectiveFrequency, Osc.calculateShiftedFrequency, constrainQ, constrainI]
  norm_num

/-- C2 (amended): every sample returned by `Oscillator::getNextSample` is
within the signed 16-bit range, and — provided the effective frequency
(base × 2^octaveShift) does not exceed the sample rate — the phase
accumulator remains in `[0, 1)` after any number of calls. (Without that
proviso the invariant fails: the setters admit effective frequencies up
to 40 kHz against the engine's 22050 Hz rate, see the counterexample.) -/
theorem osc_phase_and_range (o : Osc.Oscillator) (rate : ℚ)
    (h0 : 0 ≤ o.phase) (h1 : o.phase < 1) (hr : 0 < rate)
    (hf : 0 ≤ Osc.getEffectiveFrequency o) (hle : Osc.getEffectiveFrequency o ≤ rate) :
    ∀ n : ℕ,
      (0 ≤ (Osc.iterateSamples o rate n).phase ∧ (Osc.iterateSamples o rate n).phase < 1) ∧
      isSample16 ((Osc.getNextSample (Osc.iterateSamples o rate n) rate).2) := by
  have key : ∀ n : ℕ,
      (0 ≤ (Osc.iterateSamples o rate n).phase ∧ (Osc.iterateSamples o rate n).phase < 1) ∧
      Osc.getEffectiveFrequency (Osc.iterateSamples o rate n) = Osc.getEffectiveFrequency o := by
    intro n
    induction n with
    | zero => exact ⟨⟨h0, h1⟩, rfl⟩
    | succ n ih =>
        have heff := getNextSample_eff (Osc.iterateSamples o rate n) rate
        refine ⟨?_, ?_⟩
        · exact osc_phase_step (Osc.iterateSamples o rate n) rate ih.1.1 ih.1.2 hr
            (ih.2 ▸ hf) (ih.2 ▸ hle)
        · show Osc.getEffectiveFrequency (Osc.getNextSample (Osc.iterateSamples o rate n) rate).1 = _
          rw [heff, ih.2]
  intro n
  exact ⟨(key n).1, getNextSample_isSample16 _ _⟩

theorem osc_phase_and_range_witness :
    (0 ≤ (Osc.iterateSamples Osc.mk0 22050 3).phase ∧
      (Osc.iterateSamples Osc.mk0 22050 3).phase < 1) ∧
    isSample16 ((Osc.getNextSample (Osc.iterateSamples Osc.mk0 22050 3) 22050).2) :=
  osc_phase_and_range Osc.mk0 22050 (by norm_num [Osc.mk0]) (by norm_num [Osc.mk0]) (by norm_num)
    (by norm_num [Osc.getEffectiveFrequency, Osc.calculateShiftedFrequency, Osc.mk0])
    (by norm_num [Osc.getEffectiveFrequency, Osc.calculateShiftedFrequency, Osc.mk0]) 3

/-! ## Claim C4: delay single-echo law -/

/-- A `DelayEffect` constructed with `DelayEffect(delayMs, R)` and then
configured through the setters with feedback 0, mix 1.0 and enabled. -/

def singleEchoConfig (delayMs R : ℕ) : Delay.DelayEffect :=
  Delay.setEnabled (Delay.setMix (Delay.setFeedback (Delay.mk0 delayMs R) 0) 1) true

def delayInv (B : ℕ) (f : ℕ → ℤ) (t : ℕ) (d : Delay.DelayEffect) : Prop :=
  d.enabled = true ∧ d.feedback = 0 ∧ d.wetDryMix = 1 ∧
  d.buf.length = B ∧ d.writeIndex = t % B ∧
  ∀ j, j < B →
    d.buf.getD j 0 =
      (if j < t % B then f (t - t % B + j)
       else if B ≤ t then f (t - t % B + j - B) else 0)

theorem succ_mod_eq (t B : ℕ) (hB : 0 < B) :
    (t + 1) % B = if t % B + 1 ≥ B then 0 else t % B + 1 := by
  have hm : t % B < B := Nat.mod_lt t hB
  by_cases hB1 : B = 1
  · subst hB1
    simp [Nat.mod_one]
  · have h1B : 1 % B = 1 := Nat.mod_eq_of_lt (by omega)
    have hadd : (t + 1) % B = (t % B + 1) % B := by
      rw [Nat.add_mod, h1B]
    by_cases hc : t % B + 1 ≥ B
    · have he : t % B + 1 = B := by omega
      rw [if_pos hc, hadd, he, Nat.mod_self]
    · rw [if_neg hc, hadd, Nat.mod_eq_of_lt (by omega)]

theorem delay_process_step (B : ℕ) (f : ℕ → ℤ) (hB : 0 < B)
    (hf : ∀ s, isSample16 (f s)) (t : ℕ) (d : Delay.DelayEffect)
    (h : delayInv B f t d) :
    delayInv B f (t + 1) (Delay.process d (f t)).1 ∧
    (Delay.process d (f t)).2 = (if B ≤ t then f (t - B) else 0) := by
  obtain ⟨hen, hfb, hmx, hlen, hwi, hbuf⟩ := h
  have hmod : t % B < B := Nat.mod_lt t hB
  have hmodle : t % B ≤ t := Nat.mod_le t B
  -- the delayed sample read at the cursor
  have hd : d.buf.getD d.writeIndex 0 = (if B ≤ t then f (t - B) else 0) := by
    rw [hwi, hbuf (t % B) hmod, if_neg (lt_irrefl (t % B))]
    by_cases hBt : B ≤ t
    · rw [if_pos hBt, if_pos hBt]
      congr 1
      omega
    · rw [if_neg hBt, if_neg hBt]
  have hdr : isSample16 (d.buf.getD d.writeIndex 0) := by
    rw [hd]
    split
    · exact hf _
    · exact ⟨by norm_num, by norm_num⟩
  -- reduce process in the enabled branch
  have hproc : Delay.process d (f t) =
      ({ d with
          buf := d.buf.set d.writeIndex (f t),
          writeIndex := if d.writeIndex + 1 ≥ B then 0 else d.writeIndex + 1 },
        d.buf.getD d.writeIndex 0) := by
    unfold Delay.process
    rw [hen]
    simp only [Bool.not_true, Bool.false_eq_true, if_false, hfb, hmx]
    have e1 : ((f t : ℚ) + (d.buf.getD d.writeIndex 0 : ℚ) * 0) = ((f t : ℤ) : ℚ) := by ring
    have e2 : ((f t : ℚ) * (1 - 1) + (d.buf.getD d.writeIndex 0 : ℚ) * 1) =
        ((d.buf.getD d.writeIndex 0 : ℤ) : ℚ) := by ring
    rw [e1, e2, truncQ_intCast, truncQ_intCast,
      constrainI_eq_self (hf t).1 (hf t).2, constrainI_eq_self hdr.1 hdr.2,
      List.length_set, hlen]
  rw [hproc]
  refine ⟨⟨hen, hfb, hmx, ?_, ?_, ?_⟩, hd⟩
  · simpa [List.length_set] using hlen
  · show (if d.writeIndex + 1 ≥ B then 0 else d.writeIndex + 1) = (t + 1) % B
    rw [hwi, succ_mod_eq t B hB]
  · -- cell contents after the write
    intro j hj
    show (d.buf.set d.writeIndex (f t)).getD j 0 = _
    rw [hwi]
    rw [succ_mod_eq t B hB]
    by_cases hj_eq : t % B = j
    · subst hj_eq
      rw [getD_set_self (by omega)]
      by_cases hc : t % B + 1 ≥ B
      · rw [if_pos hc]
        have hBt1 : B ≤ t + 1 := by omega
        rw [if_neg (by omega), if_pos hBt1]
        congr 1
        omega
      · rw [if_neg hc, if_pos (by omega)]
        congr 1
        omega
    · rw [getD_set_other hj_eq, hbuf j hj]
      by_cases hBt : B ≤ t
      · -- t has already wrapped at least once
        by_cases hc : t % B + 1 ≥ B
        · -- cursor wraps to 0
          rw [if_pos hc]
          have hj_lt : j < t % B := by omega
          rw [if_pos hj_lt, if_neg (by omega), if_pos (by omega)]
          congr 1
          omega
        · rw [if_neg hc]
          by_cases hjr : j < t % B
          · rw [if_pos hjr, if_pos (by omega)]
            congr 1
            omega
          · rw [if_neg hjr, if_pos hBt, if_neg (by omega), if_pos (by omega)]
            congr 1
            omega
      · -- t < B: the buffer has not wrapped yet, t % B = t
        have ht : t % B = t := Nat.mod_eq_of_lt (by omega)
        by_cases hc : t % B + 1 ≥ B
        · rw [if_pos hc]
          have hj_lt : j < t % B := by omega
          rw [if_pos hj_lt, if_neg (by omega), if_pos (by omega)]
          congr 1
          omega
        · rw [if_neg hc]
          by_cases hjr : j < t % B
          · rw [if_pos hjr, if_pos (by omega)]
            congr 1
            omega
          · rw [if_neg hjr, if_neg hBt, if_neg (by omega), if_neg (by omega)]

theorem delayInv_init (delayMs R : ℕ) (f : ℕ → ℤ) :
    delayInv (Delay.calculateBufferSize delayMs R) f 0 (singleEchoConfig delayMs R) := by
  have hB : 0 < Delay.calculateBufferSize delayMs R := by
    unfold Delay.calculateBufferSize
    omega
  refine ⟨rfl, ?_, ?_, ?_, ?_, ?_⟩
  · show constrainQ 0 0 (95/100) = 0
    norm_num [constrainQ]
  · show constrainQ 1 0 1 = 1
    norm_num [constrainQ]
  · exact List.length_replicate _ _
  · show (0 : ℕ) = 0 % _
    rw [Nat.zero_mod]
  · intro j hj
    show (List.replicate _ (0:ℤ)).getD j 0 = _
    rw [getD_replicate, Nat.zero_mod, if_neg (by omega), if_neg (by omega)]

theorem delay_run_inv (delayMs R : ℕ) (f : ℕ → ℤ) (hf : ∀ s, isSample16 (f s)) :
    ∀ t, delayInv (Delay.calculateBufferSize delayMs R) f t
      (Delay.run (singleEchoConfig delayMs R) f t) := by
  have hB : 0 < Delay.calculateBufferSize delayMs R := by
    unfold Delay.calculateBufferSize
    omega
  intro t
  induction t with
  | zero => exact delayInv_init delayMs R f
  | succ t ih => exact (delay_process_step _ f hB hf t _ ih).1

/-- C4 (amended): for an enabled delay with feedback 0 and mix 1.0, the
output of the `t`-th `process` call equals the input of call
`t − bufferSize` — where `bufferSize = ⌊delayMs·R/1000⌋ + 10` is the
allocated buffer length including the 10-sample safety margin, not the
nominal `delaySamples = delayMs·R/1000` — once at least `bufferSize`
calls have been made, for every int16 input sequence. -/
theorem delay_single_echo (delayMs R : ℕ) (f : ℕ → ℤ)
    (hf : ∀ s, isSample16 (f s)) (t : ℕ)
    (ht : Delay.calculateBufferSize delayMs R ≤ t) :
    Delay.outAt (singleEchoConfig delayMs R) f t =
      f (t - Delay.calculateBufferSize delayMs R) := by
  have hB : 0 < Delay.calculateBufferSize delayMs R := by
    unfold Delay.calculateBufferSize
    omega
  have hstep := (delay_process_step _ f hB hf t _ (delay_run_inv delayMs R f hf t)).2
  unfold Delay.outAt
  rw [hstep, if_pos ht]

theorem delay_single_echo_witness :
    Delay.outAt (singleEchoConfig 100 10) (fun _ => (5 : ℤ)) 11 = 5 := by
  have h := delay_single_echo 100 10 (fun _ => (5 : ℤ))
    (fun _ => ⟨by norm_num, by norm_num⟩) 11
    (by norm_num [Delay.calculateBufferSize, truncQ])
  simpa using h

/-- C4 counterexample: with `delayMs = 100`, `R = 10` the claimed delay is
`delaySamples = 100·10/1000 = 1` sample, so after one call the output
should equal the input of the previous call (`f 0 = 1`); the code instead
reads at the write cursor of the `⌊delayMs·R/1000⌋ + 10 = 11`-cell
buffer, so the actual output at `t = 1` is still the initial zero. -/
theorem delay_single_echo_cx :
    Delay.outAt (singleEchoConfig 100 10) (fun s => (s : ℤ) % 1000 + 1) 1 = 0 ∧
    (fun s => (s : ℤ) % 1000 + 1) (1 - 1) = 1 ∧
    Delay.outAt (singleEchoConfig 100 10) (fun s => (s : ℤ) % 1000 + 1) 1 ≠
      (fun s => (s : ℤ) % 1000 + 1) (1 - 1) := by
  have hf : ∀ s : ℕ, isSample16 ((fun s : ℕ => (s : ℤ) % 1000 + 1) s) := by
    intro s
    have h1 : 0 ≤ (s : ℤ) % 1000 := Int.emod_nonneg _ (by norm_num)
    have h2 : (s : ℤ) % 1000 < 1000 := Int.emod_lt_of_pos _ (by norm_num)
    exact ⟨by simp only []; omega, by simp only []; omega⟩
  have hB : 0 < Delay.calculateBufferSize 100 10 := by
    unfold Delay.calculateBufferSize
    omega
  have hout : Delay.outAt (singleEchoConfig 100 10) (fun s => (s : ℤ) % 1000 + 1) 1 = 0 := by
    have hstep := (delay_process_step _ _ hB hf 1 _
      (delay_run_inv 100 10 _ hf 1)).2
    unfold Delay.outAt
    rw [hstep, if_neg (by norm_num [Delay.calculateBufferSize, truncQ])]
  refine ⟨hout, by norm_num, ?_⟩
  rw [hout]
  norm_num

/-! ## Witness material for claim C1 -/

theorem getD_mem {α : Type} (l : List α) (n : ℕ) (d : α) (h : n < l.length) :
    l.getD n d ∈ l := by
  rw [List.getD_eq_getElem?_getD, List.getElem?_eq_getElem h]
  simp only [Option.getD_some]
  exact List.getElem_mem h

/-- Fallback comb value used only as the `getD` default below. -/
def combDefault : Reverb.CombFilter :=
  { buf := [], bufferIndex := 0, feedback := 0, filterStore := 0, damp1 := 0, damp2 := 0 }

theorem reverb_comb_feedback_stable_witness :
    ((([] : List ℚ).foldl Reverb.setRoomSize (Reverb.mk0 22050)).combs.getD 0 combDefault).feedback
        ≤ 94/100 ∧
    ((([] : List ℚ).foldl Reverb.setRoomSize (Reverb.mk0 22050)).combs.getD 0 combDefault).feedback
        < 1 :=
  have hlen : 0 < (([] : List ℚ).foldl Reverb.setRoomSize (Reverb.mk0 22050)).combs.length := by
    simp [Reverb.mk0, Reverb.updateCombs, Reverb.COMB_DELAYS_MS]
  have h := reverb_comb_feedback_stable [] _ (getD_mem _ 0 combDefault hlen)
  ⟨h.2.1, h.2.2⟩
